import Mathlib

/-!
# Verification of the location-bot panorama pipeline (src/main.go)

Shallow embedding of the Go program in `src/main.go`: a tile-grid planner,
a rate-limited sequential downloader, and a panorama compositor.

Modelling conventions:
* Go `int` is modelled as unbounded `Int` (the program's zoom levels and
  pixel offsets are far below machine-word bounds; overflow is out of scope).
  The one machine-level behaviour that is modelled explicitly is Go's
  runtime panic on a negative shift count in `1 << n`, because the planner
  evaluates `1 << (zoom-1)`.
* Go runtime panics and `panic(err)` calls in `main` are modelled as
  exceptional results (`Except.error`) with dedicated constructors, kept
  distinct from ordinary returned errors by constructor.
* External collaborators (the HTTP transport, `http.NewRequest`, the vips
  imaging primitives, `golang.org/x/time/rate`) are not part of src/ and are
  modelled as oracle parameters or from the spec's description of their
  contract; each such definition says so in its doc comment.
* Byte slices are modelled as `List Nat`, pixel colours as `Nat`
  (0 = black), images as a size plus a pixel function.
-/

deriving instance DecidableEq for Except

namespace LocationBot

/-- Error/abort values observable in the pipeline.  `negativeShiftPanic`
models the Go runtime panic raised by a negative shift count; the other
constructors model the error values returned by the external collaborators
(with an opaque numeric code) and by the modelled vips primitives. -/
inductive GoError where
  | negativeShiftPanic : GoError
  | contextCanceled : GoError
  | badRequest (code : Nat) : GoError
  | network (code : Nat) : GoError
  | decodeError (code : Nat) : GoError
  | insertOutOfBounds : GoError
  | trimError (code : Nat) : GoError
  | extractOutOfBounds : GoError
  | exportError (code : Nat) : GoError
  | writeError (code : Nat) : GoError
deriving DecidableEq

/-- `const tileSize = 512` (main.go line 14). -/
def tileSize : Int := 512

/-- `const defaultZoom = 4` (main.go line 15). -/
def defaultZoom : Int := 4

/-- `const trimThreshold = 6` (main.go line 16). -/
def trimThreshold : Int := 6

/-- `type dimensions struct { width, height int }` (main.go lines 18-20). -/
structure dimensions where
  width : Int
  height : Int
deriving DecidableEq

/-- Go evaluation of `1 << n` for an `int` shift count `n`: a negative
shift count is a runtime panic ("negative shift amount"); otherwise the
result is `2 ^ n`. -/
def goShiftOne (n : Int) : Except GoError Int :=
  if n < 0 then .error .negativeShiftPanic else .ok (2 ^ n.toNat)

/-- `getDimensionsFromZoom` (main.go lines 82-87):
`dimensions{width: 1 << zoom, height: 1 << (zoom - 1)}`. -/
def getDimensionsFromZoom (zoom : Int) : Except GoError dimensions := do
  let w ← goShiftOne zoom
  let h ← goShiftOne (zoom - 1)
  .ok { width := w, height := h }

/-- Fuel-driven decimal digit expansion (most significant digit first);
structural in the fuel so that it reduces definitionally.  With fuel > n it
computes the standard decimal digit string of `n`. -/
def natDecGo : Nat → Nat → List Char
  | 0, _ => []
  | fuel + 1, n =>
    if n < 10 then [Nat.digitChar n]
    else natDecGo fuel (n / 10) ++ [Nat.digitChar (n % 10)]

/-- Decimal digit characters of a natural number, e.g. `123 ↦ ['1','2','3']`. -/
def natDecChars (n : Nat) : List Char := natDecGo (n + 1) n

/-- Decimal rendering of a Go `int` as produced by `fmt.Sprintf("%d", z)`:
a minus sign followed by the digits of the absolute value for negative
values, the plain digit string otherwise. -/
def intDecChars (z : Int) : List Char :=
  if z < 0 then '-' :: natDecChars z.natAbs else natDecChars z.toNat

/-- `fmt.Sprintf("%d", z)` as a string. -/
def intDec (z : Int) : String := String.mk (intDecChars z)

/-- `makePanoUrl` (main.go lines 61-66): the Sprintf template
`https://cbk0.google.com/cbk?output=tile&panoid=%s&zoom=%d&x=%d&y=%d`. -/
def makePanoUrl (panoId : String) (zoom x y : Int) : String :=
  "https://cbk0.google.com/cbk?output=tile&panoid=" ++ panoId ++
    "&zoom=" ++ intDec zoom ++ "&x=" ++ intDec x ++ "&y=" ++ intDec y

/-- `type tileConfig struct { x, y int; url string }` (main.go lines 22-25). -/
structure tileConfig where
  x : Int
  y : Int
  url : String
deriving DecidableEq

/-- `type tileData struct { x, y int; data []byte }` (main.go lines 27-30). -/
structure tileData where
  x : Int
  y : Int
  data : List Nat
deriving DecidableEq

/-- The nested `for x ... for y ... append` loop of `getTilesConfig`
(main.go lines 93-101), parameterised by the loop bounds: outer loop over
the column `x`, inner loop over the row `y`, appending in order.  A Go
`for i := 0; i < b; i++` loop with `int` bound `b` runs for
`i = 0, ..., b-1` and not at all when `b ≤ 0`, which is `List.range b.toNat`. -/
def tileGrid (panoId : String) (zoom : Int) (w h : Nat) : List tileConfig :=
  (List.range w).flatMap fun (xi : Nat) =>
    (List.range h).map fun (yi : Nat) =>
      { x := (xi : Int), y := (yi : Int), url := makePanoUrl panoId zoom (xi : Int) (yi : Int) }

/-- `getTilesConfig` (main.go lines 89-104). -/
def getTilesConfig (panoId : String) (zoom : Int) : Except GoError (List tileConfig) := do
  let dim ← getDimensionsFromZoom zoom
  .ok (tileGrid panoId zoom dim.width.toNat dim.height.toNat)

/-- A Go `context.Context`, reduced to the one observable fact the program
can react to: whether it has been cancelled. -/
structure GoContext where
  cancelled : Bool
deriving DecidableEq

/-- `context.Background()`: a fresh root context, never cancelled. -/
def GoContext.background : GoContext := { cancelled := false }

/-- An `*http.Request`: its URL and the caller's (cancellation) context it
carries. -/
structure HttpRequest where
  url : String
  ctx : GoContext
deriving DecidableEq

/-- An `*http.Response`: status code and the full body bytes. -/
structure HttpResponse where
  status : Int
  body : List Nat
deriving DecidableEq

/-- Modelled from the spec: `rate.Limiter.Wait(ctx)` of
`golang.org/x/time/rate` (a dependency, not under src/) blocks until the
limiter admits the caller and returns an error exactly when the supplied
context is cancelled while waiting; otherwise it admits and returns nil. -/
def limiterWait (ctx : GoContext) : Except GoError Unit :=
  if ctx.cancelled then .error .contextCanceled else .ok ()

/-- `RLHTTPClient.Do` (main.go lines 37-50).  The underlying
`c.client.Do` transport is an oracle parameter.  Faithful to the source:
the context handed to `c.rl.Wait` is `context.Background()`, created
locally — not the context carried by the caller's request. -/
def RLDo (transport : HttpRequest → Except GoError HttpResponse)
    (req : HttpRequest) : Except GoError HttpResponse :=
  let ctx := GoContext.background
  match limiterWait ctx with
  | .error e => .error e
  | .ok _ =>
    match transport req with
    | .error e => .error e
    | .ok resp => .ok resp

/-- `fetchTile` (main.go lines 68-80).  `http.NewRequest("GET", url, nil)`
is the oracle `newRequest`; `io.ReadAll(resp.Body)` on an in-memory body
returns the full body bytes (read-side transport failures are folded into
the transport oracle). -/
def fetchTile (config : tileConfig)
    (newRequest : String → Except GoError HttpRequest)
    (transport : HttpRequest → Except GoError HttpResponse) :
    Except GoError (List Nat) := do
  let req ← newRequest config.url
  let resp ← RLDo transport req
  .ok resp.body

/-- The fetch loop of `getTiles` (main.go lines 110-125), instrumented with
the list of descriptors for which a fetch was actually issued (second
component).  On the first fetch error the loop returns that error at once;
descriptors after the failing one are never fetched. -/
def getTilesLoop (fetch : tileConfig → Except GoError (List Nat)) :
    List tileConfig → Except GoError (List tileData) × List tileConfig
  | [] => (.ok [], [])
  | t :: rest =>
    match fetch t with
    | .error e => (.error e, [t])
    | .ok bytes =>
      match getTilesLoop fetch rest with
      | (.error e, issued) => (.error e, t :: issued)
      | (.ok tds, issued) =>
        (.ok ({ x := t.x, y := t.y, data := bytes } :: tds), t :: issued)

/-- `getTiles` (main.go lines 106-128); `fetch` stands for
`fetchTile · rlClient`. -/
def getTiles (panoId : String) (zoom : Int)
    (fetch : tileConfig → Except GoError (List Nat)) :
    Except GoError (List tileData) := do
  let cfgs ← getTilesConfig panoId zoom
  (getTilesLoop fetch cfgs).1

/-- An in-memory image: pixel dimensions and a pixel function
(colour at column `i`, row `j`). -/
structure VImage where
  w : Int
  h : Int
  pix : Int → Int → Nat

/-- Modelled from the spec: `vips.Black(w, h)` (govips, not under src/)
allocates a `w × h` canvas filled with a uniform black background. -/
def vipsBlack (w h : Int) : VImage := { w := w, h := h, pix := fun _ _ => 0 }

/-- Opaque paste of `sub` into `base` at offset `(ox, oy)`: inside the
pasted rectangle the new pixels fully replace the canvas pixels (no
blending); outside it the canvas is unchanged.  The canvas size is
unchanged (`expand = false`). -/
def pasteImage (base sub : VImage) (ox oy : Int) : VImage :=
  { w := base.w, h := base.h,
    pix := fun i j =>
      if ox ≤ i ∧ i < ox + sub.w ∧ oy ≤ j ∧ j < oy + sub.h then
        sub.pix (i - ox) (j - oy)
      else base.pix i j }

/-- Modelled from the spec: `pano.Insert(image, x, y, false, &vips.ColorRGBA{})`
(govips, not under src/) — an opaque paste with `expand = false` and a zero
blend colour, failing with a composition error when the paste rectangle
exceeds the canvas bounds. -/
def vipsInsert (base sub : VImage) (ox oy : Int) : Except GoError VImage :=
  if 0 ≤ ox ∧ 0 ≤ oy ∧ ox + sub.w ≤ base.w ∧ oy + sub.h ≤ base.h then
    .ok (pasteImage base sub ox oy)
  else .error .insertOutOfBounds

/-- Modelled from the spec: `pano.ExtractArea(left, top, w, h)` (govips,
not under src/) — crop to the given rectangle, failing when the rectangle
exceeds the image bounds. -/
def vipsExtractArea (img : VImage) (left top w h : Int) : Except GoError VImage :=
  if 0 ≤ left ∧ 0 ≤ top ∧ left + w ≤ img.w ∧ top + h ≤ img.h then
    .ok { w := w, h := h, pix := fun i j => img.pix (left + i) (top + j) }
  else .error .extractOutOfBounds

/-- The paste loop of `compositePano` (main.go lines 138-148):
`vips.NewImageFromBuffer` is the oracle `decode` (error codes are opaque
and wrapped as a decode error); each decoded tile is inserted at pixel
offset `(tileSize*x, tileSize*y)`; the first error aborts. -/
def insertLoop (decode : List Nat → Except Nat VImage) (pano : VImage) :
    List tileData → Except GoError VImage
  | [] => .ok pano
  | t :: rest =>
    match decode t.data with
    | .error c => .error (.decodeError c)
    | .ok img =>
      match vipsInsert pano img (tileSize * t.x) (tileSize * t.y) with
      | .error e => .error e
      | .ok pano2 => insertLoop decode pano2 rest

/-- `compositePano` (main.go lines 130-161).  `pano.FindTrim(trimThreshold,
&vips.Color{})` is the oracle `findTrim` returning `(left, top, width,
height)` or an opaque error code. -/
def compositePano (decode : List Nat → Except Nat VImage)
    (findTrim : VImage → Except Nat (Int × Int × Int × Int))
    (tiles : List tileData) (zoom : Int) : Except GoError VImage := do
  let dim ← getDimensionsFromZoom zoom
  let pano0 := vipsBlack (tileSize * dim.width) (tileSize * dim.height)
  let pano ← insertLoop decode pano0 tiles
  match findTrim pano with
  | .error c => .error (.trimError c)
  | .ok (left, top, tw, th) => vipsExtractArea pano left top tw th

/-- The hard-coded panorama id of `main` (main.go line 167). -/
def mainPanoId : String := "KGt-9AaQ7UTn_PgwRqtTOg"

/-- `main` (main.go lines 163-188) as a function of its external
collaborators.  Each `panic(err)` is modelled as propagating the error; the
final `err = os.WriteFile("pano.jpg", imageBytes, 0644)` assigns the write
result and then falls off the end of `main`, so the write outcome is
computed and discarded. -/
def mainRun (fetch : tileConfig → Except GoError (List Nat))
    (decode : List Nat → Except Nat VImage)
    (findTrim : VImage → Except Nat (Int × Int × Int × Int))
    (exportJPEG : VImage → Except Nat (List Nat))
    (writeFile : List Nat → Except Nat Unit) : Except GoError Unit := do
  let tiles ← getTiles mainPanoId defaultZoom fetch
  let pano ← compositePano decode findTrim tiles defaultZoom
  let imageBytes ← (exportJPEG pano).mapError GoError.exportError
  let _ := writeFile imageBytes
  .ok ()

/-- Modelled from the spec: admission times of a token-bucket limiter with
refill interval `I` and burst 1 (`rate.NewLimiter(rate.Every(200ms), 1)`,
dependency not under src/), driven sequentially in virtual time.  State:
`now` is the current time, `ready` the earliest time the next token is
available.  Each wait admits at `max now ready` and schedules the next
token one interval later; the matching delay `d` is the time the caller
spends before issuing its next request (request + handling time). -/
def admissionTimes (I : Nat) : List Nat → Nat → Nat → List Nat
  | [], _, _ => []
  | d :: ds, now, ready =>
    max now ready :: admissionTimes I ds (max now ready + d) (max now ready + I)

/-- Admission times of a sequence of requests issued one after another
(each issued only after the previous one was admitted), starting at time 0
against a freshly created limiter (one token immediately available). -/
def seqAdmissions (I : Nat) (delays : List Nat) : List Nat :=
  admissionTimes I delays 0 0

/-- Two paste rectangles (offset and size, in pixels) do not overlap. -/
def regionsDisjoint (x1 y1 w1 h1 x2 y2 w2 h2 : Int) : Prop :=
  x1 + w1 ≤ x2 ∨ x2 + w2 ≤ x1 ∨ y1 + h1 ≤ y2 ∨ y2 + h2 ≤ y1

instance (x1 y1 w1 h1 x2 y2 w2 h2 : Int) :
    Decidable (regionsDisjoint x1 y1 w1 h1 x2 y2 w2 h2) := by
  unfold regionsDisjoint; infer_instance

/-- One pass of the paste loop, with errors flattened away: the pure
canvas transformer underlying `insertLoop` when every decode succeeds and
every paste is in bounds. -/
def pureStep (decode : List Nat → Except Nat VImage) (c : VImage)
    (t : tileData) : VImage :=
  match decode t.data with
  | .error _ => c
  | .ok img =>
    match vipsInsert c img (tileSize * t.x) (tileSize * t.y) with
    | .error _ => c
    | .ok c2 => c2

/-- Value of a decimal digit character. -/
def decDigit (c : Char) : Nat := c.toNat - 48

/-- Value of a decimal digit string (most significant digit first). -/
def decVal (cs : List Char) : Nat := cs.foldl (fun a c => a * 10 + decDigit c) 0

/-! ## Lemmas -/

theorem VImage.ext {a b : VImage} (hw : a.w = b.w) (hh : a.h = b.h)
    (hp : ∀ i j, a.pix i j = b.pix i j) : a = b := by
  cases a; cases b
  simp only at hw hh hp
  subst hw; subst hh
  congr 1
  funext i j
  exact hp i j

/-! ## Lemmas about the decimal rendering -/

theorem natDecGo_fuel (n : Nat) : ∀ f1 f2, n < f1 → n < f2 →
    natDecGo f1 n = natDecGo f2 n := by
  induction n using Nat.strong_induction_on with
  | _ n ih =>
    intro f1 f2 h1 h2
    cases f1 with
    | zero => omega
    | succ g1 =>
      cases f2 with
      | zero => omega
      | succ g2 =>
        simp only [natDecGo]
        by_cases hn : n < 10
        · simp [hn]
        · simp only [if_neg hn]
          have hd : n / 10 < n := Nat.div_lt_self (by omega) (by omega)
          rw [ih (n / 10) hd g1 g2 (by omega) (by omega)]

theorem natDecChars_lt {n : Nat} (h : n < 10) : natDecChars n = [Nat.digitChar n] := by
  simp [natDecChars, natDecGo, h]

theorem natDecChars_ge {n : Nat} (h : 10 ≤ n) :
    natDecChars n = natDecChars (n / 10) ++ [Nat.digitChar (n % 10)] := by
  have hd : n / 10 < n := Nat.div_lt_self (by omega) (by omega)
  show natDecGo (n + 1) n = _
  simp only [natDecGo, if_neg (by omega : ¬ n < 10)]
  congr 1
  exact natDecGo_fuel (n / 10) n (n / 10 + 1) (by omega) (by omega)

theorem digitChar_toNat {d : Nat} (h : d < 10) : (Nat.digitChar d).toNat = 48 + d := by
  interval_cases d <;> decide

theorem mem_natDecChars_digit (n : Nat) :
    ∀ c ∈ natDecChars n, 48 ≤ c.toNat ∧ c.toNat ≤ 57 := by
  induction n using Nat.strong_induction_on with
  | _ n ih =>
    by_cases h : n < 10
    · rw [natDecChars_lt h]
      intro c hc
      simp only [List.mem_singleton] at hc
      subst hc
      rw [digitChar_toNat h]
      omega
    · rw [natDecChars_ge (by omega)]
      intro c hc
      rcases List.mem_append.1 hc with h1 | h1
      · exact ih (n / 10) (Nat.div_lt_self (by omega) (by omega)) c h1
      · simp only [List.mem_singleton] at h1
        subst h1
        have hm : n % 10 < 10 := Nat.mod_lt _ (by omega)
        rw [digitChar_toNat hm]
        omega

theorem natDecChars_foldl (n : Nat) : ∀ acc : Nat,
    (natDecChars n).foldl (fun a c => a * 10 + decDigit c) acc =
      acc * 10 ^ (natDecChars n).length + n := by
  induction n using Nat.strong_induction_on with
  | _ n ih =>
    intro acc
    by_cases h : n < 10
    · rw [natDecChars_lt h]
      simp only [List.foldl, List.length_singleton, pow_one, decDigit, digitChar_toNat h]
      omega
    · rw [natDecChars_ge (by omega)]
      rw [List.foldl_append]
      rw [ih (n / 10) (Nat.div_lt_self (by omega) (by omega)) acc]
      have hm : n % 10 < 10 := Nat.mod_lt _ (by omega)
      simp only [List.foldl, List.length_append, List.length_singleton, decDigit,
        digitChar_toNat hm, pow_succ]
      rw [← Nat.mul_assoc, Nat.add_mul]
      omega

theorem decVal_natDecChars (n : Nat) : decVal (natDecChars n) = n := by
  have h := natDecChars_foldl n 0
  simpa [decVal] using h

theorem natDecChars_inj {a b : Nat} (h : natDecChars a = natDecChars b) : a = b := by
  have ha := decVal_natDecChars a
  rw [h, decVal_natDecChars b] at ha
  omega

theorem intDecChars_inj {a b : Int} (h : intDecChars a = intDecChars b) : a = b := by
  unfold intDecChars at h
  by_cases ha : a < 0 <;> by_cases hb : b < 0
  · rw [if_pos ha, if_pos hb] at h
    injection h with h1 h2
    have := natDecChars_inj h2
    omega
  · rw [if_pos ha, if_neg hb] at h
    have hm : '-' ∈ natDecChars b.toNat := by
      rw [← h]; exact List.mem_cons_self _ _
    have hbd := mem_natDecChars_digit b.toNat '-' hm
    have h45 : ('-').toNat = 45 := by decide
    omega
  · rw [if_neg ha, if_pos hb] at h
    have hm : '-' ∈ natDecChars a.toNat := by
      rw [h]; exact List.mem_cons_self _ _
    have had := mem_natDecChars_digit a.toNat '-' hm
    have h45 : ('-').toNat = 45 := by decide
    omega
  · rw [if_neg ha, if_neg hb] at h
    have := natDecChars_inj h
    omega

theorem intDec_inj {a b : Int} (h : intDec a = intDec b) : a = b := by
  apply intDecChars_inj
  have hd := congrArg String.data h
  simpa [intDec] using hd

/-! ## Injectivity of the URL template in each field -/

theorem makePanoUrl_p_inj {p1 p2 : String} {z x y : Int}
    (h : makePanoUrl p1 z x y = makePanoUrl p2 z x y) : p1 = p2 := by
  have hd := congrArg String.data h
  simp only [makePanoUrl, String.data_append, List.append_assoc] at hd
  have h1 := List.append_cancel_left hd
  exact String.ext (List.append_cancel_right h1)

theorem makePanoUrl_z_inj {p : String} {z1 z2 x y : Int}
    (h : makePanoUrl p z1 x y = makePanoUrl p z2 x y) : z1 = z2 := by
  have hd := congrArg String.data h
  simp only [makePanoUrl, String.data_append, List.append_assoc] at hd
  have h1 := List.append_cancel_left hd
  have h2 := List.append_cancel_left h1
  have h3 := List.append_cancel_left h2
  exact intDec_inj (String.ext (List.append_cancel_right h3))

theorem makePanoUrl_x_inj {p : String} {z x1 x2 y : Int}
    (h : makePanoUrl p z x1 y = makePanoUrl p z x2 y) : x1 = x2 := by
  have hd := congrArg String.data h
  simp only [makePanoUrl, String.data_append, List.append_assoc] at hd
  have h1 := List.append_cancel_left hd
  have h2 := List.append_cancel_left h1
  have h3 := List.append_cancel_left h2
  have h4 := List.append_cancel_left h3
  have h5 := List.append_cancel_left h4
  exact intDec_inj (String.ext (List.append_cancel_right h5))

theorem makePanoUrl_y_inj {p : String} {z x y1 y2 : Int}
    (h : makePanoUrl p z x y1 = makePanoUrl p z x y2) : y1 = y2 := by
  have hd := congrArg String.data h
  simp only [makePanoUrl, String.data_append, List.append_assoc] at hd
  have h1 := List.append_cancel_left hd
  have h2 := List.append_cancel_left h1
  have h3 := List.append_cancel_left h2
  have h4 := List.append_cancel_left h3
  have h5 := List.append_cancel_left h4
  have h6 := List.append_cancel_left h5
  have h7 := List.append_cancel_left h6
  exact intDec_inj (String.ext h7)

/-! ## Planner lemmas -/

theorem goShiftOne_nonneg {n : Int} (h : 0 ≤ n) :
    goShiftOne n = .ok ((2 : Int) ^ n.toNat) := by
  rw [goShiftOne, if_neg (by omega)]

theorem intPow_toNat (k : Nat) : ((2 : Int) ^ k).toNat = 2 ^ k := by
  have h : ((2 : Int) ^ k) = ((2 ^ k : Nat) : Int) := by push_cast; ring
  rw [h, Int.toNat_ofNat]

theorem getDimensionsFromZoom_pos {z : Int} (h : 1 ≤ z) :
    getDimensionsFromZoom z =
      .ok { width := (2 : Int) ^ z.toNat, height := (2 : Int) ^ (z - 1).toNat } := by
  unfold getDimensionsFromZoom
  rw [goShiftOne_nonneg (by omega), goShiftOne_nonneg (by omega)]
  rfl

theorem getTilesConfig_pos {z : Int} (h : 1 ≤ z) (p : String) :
    getTilesConfig p z = .ok (tileGrid p z (2 ^ z.toNat) (2 ^ (z - 1).toNat)) := by
  unfold getTilesConfig
  rw [getDimensionsFromZoom_pos h]
  show Except.ok (tileGrid p z ((2 : Int) ^ z.toNat).toNat ((2 : Int) ^ (z - 1).toNat).toNat) = _
  rw [intPow_toNat, intPow_toNat]

theorem tileGrid_length (p : String) (z : Int) (h : Nat) :
    ∀ w, (tileGrid p z w h).length = w * h := by
  intro w
  induction w with
  | zero => simp [tileGrid]
  | succ n ih =>
    unfold tileGrid at ih ⊢
    rw [List.range_succ]
    simp only [List.flatMap_append, List.length_append, ih, List.flatMap_cons,
      List.flatMap_nil, List.append_nil, List.length_map, List.length_range]
    ring

theorem mem_tileGrid {p : String} {z : Int} {w h : Nat} {t : tileConfig} :
    t ∈ tileGrid p z w h ↔
      ∃ xi, xi < w ∧ ∃ yi, yi < h ∧
        t = { x := (xi : Int), y := (yi : Int), url := makePanoUrl p z (xi : Int) (yi : Int) } := by
  simp only [tileGrid, List.mem_flatMap, List.mem_map, List.mem_range]
  constructor
  · rintro ⟨xi, hxi, yi, hyi, rfl⟩
    exact ⟨xi, hxi, yi, hyi, rfl⟩
  · rintro ⟨xi, hxi, yi, hyi, rfl⟩
    exact ⟨xi, hxi, yi, hyi, rfl⟩

theorem tileGrid_succ (p : String) (z : Int) (h n : Nat) :
    tileGrid p z (n + 1) h = tileGrid p z n h ++
      (List.range h).map (fun (yi : Nat) =>
        ({ x := (n : Int), y := (yi : Int),
           url := makePanoUrl p z (n : Int) (yi : Int) } : tileConfig)) := by
  unfold tileGrid
  rw [List.range_succ]
  simp

theorem tileGrid_getElem (p : String) (z : Int) (h : Nat) :
    ∀ (w i j : Nat), i < w → j < h → ∀ hidx : i * h + j < (tileGrid p z w h).length,
      (tileGrid p z w h)[i * h + j] =
        { x := (i : Int), y := (j : Int), url := makePanoUrl p z (i : Int) (j : Int) } := by
  intro w
  induction w with
  | zero => intro i j hi; omega
  | succ n ih =>
    intro i j hi hj hidx
    have hlen : (tileGrid p z n h).length = n * h := tileGrid_length p z h n
    have hcast := tileGrid_succ p z h n
    rcases Nat.lt_or_ge i n with hin | hin
    · have hlt : i * h + j < (tileGrid p z n h).length := by
        rw [hlen]
        have h1 : (i + 1) * h = i * h + h := by ring
        have h2 : (i + 1) * h ≤ n * h := Nat.mul_le_mul_right h (by omega)
        omega
      rw [List.getElem_of_eq hcast hidx, List.getElem_append_left hlt]
      exact ih i j hin hj hlt
    · have hieq : i = n := by omega
      subst hieq
      have hge : (tileGrid p z i h).length ≤ i * h + j := by rw [hlen]; omega
      rw [List.getElem_of_eq hcast hidx, List.getElem_append_right hge]
      simp only [List.getElem_map, List.getElem_range]
      congr 2 <;> rw [hlen] <;> omega

theorem tileGrid_get (p : String) (z : Int) (h w i j : Nat) (hi : i < w) (hj : j < h)
    (hidx : i * h + j < (tileGrid p z w h).length) :
    (tileGrid p z w h).get ⟨i * h + j, hidx⟩ =
      { x := (i : Int), y := (j : Int), url := makePanoUrl p z (i : Int) (j : Int) } := by
  rw [List.get_eq_getElem]
  exact tileGrid_getElem p z h w i j hi hj hidx

theorem tileGrid_pairs_nodup (p : String) (z : Int) (w h : Nat) :
    ((tileGrid p z w h).map fun t => (t.x, t.y)).Nodup := by
  unfold tileGrid
  rw [List.map_flatMap]
  rw [List.nodup_flatMap]
  constructor
  · intro xi _
    rw [List.map_map]
    apply List.Nodup.map ?_ (List.nodup_range h)
    intro a b hab
    simp only [Function.comp] at hab
    have := congrArg Prod.snd hab
    simpa using this
  · apply List.Pairwise.imp ?_ (List.pairwise_lt_range w)
    intro a b hab
    intro q hq1 hq2
    simp only [List.map_map, List.mem_map, Function.comp] at hq1 hq2
    rcases hq1 with ⟨y1, _, rfl⟩
    rcases hq2 with ⟨y2, _, hq⟩
    have hfst := congrArg Prod.fst hq
    simp only at hfst
    omega

theorem tileGrid_pairs_mem {p : String} {z : Int} {w h : Nat} {a b : Int}
    (ha0 : 0 ≤ a) (haw : a < (w : Int)) (hb0 : 0 ≤ b) (hbh : b < (h : Int)) :
    (a, b) ∈ (tileGrid p z w h).map fun t => (t.x, t.y) := by
  refine List.mem_map.2
    ⟨{ x := a, y := b, url := makePanoUrl p z a b }, ?_, rfl⟩
  rw [mem_tileGrid]
  refine ⟨a.toNat, by omega, b.toNat, by omega, ?_⟩
  rw [Int.toNat_of_nonneg ha0, Int.toNat_of_nonneg hb0]

/-! ## Except plumbing -/

theorem exceptOkBind {ε α β : Type} (a : α) (f : α → Except ε β) :
    (Except.ok a >>= f) = f a := rfl

theorem exceptErrBind {ε α β : Type} (e : ε) (f : α → Except ε β) :
    ((Except.error e : Except ε α) >>= f) = .error e := rfl

theorem exceptIsOk {ε α : Type} {x : Except ε α} (h : x.isOk = true) :
    ∃ a, x = .ok a := by
  cases x with
  | ok a => exact ⟨a, rfl⟩
  | error e => simp [Except.isOk, Except.toBool] at h

/-! ## Downloader lemmas -/

theorem getTilesLoop_ok (fetch : tileConfig → Except GoError (List Nat)) :
    ∀ cfgs : List tileConfig, (∀ c ∈ cfgs, (fetch c).isOk = true) →
    ∃ tds, getTilesLoop fetch cfgs = (.ok tds, cfgs) ∧
      tds.length = cfgs.length ∧
      ∀ (i : Nat) (hi : i < tds.length) (hc : i < cfgs.length),
        (tds.get ⟨i, hi⟩).x = (cfgs.get ⟨i, hc⟩).x ∧
        (tds.get ⟨i, hi⟩).y = (cfgs.get ⟨i, hc⟩).y ∧
        fetch (cfgs.get ⟨i, hc⟩) = .ok (tds.get ⟨i, hi⟩).data := by
  intro cfgs
  induction cfgs with
  | nil =>
    intro _
    refine ⟨[], rfl, rfl, ?_⟩
    intro i hi hc
    simp at hi
  | cons t rest ih =>
    intro hall
    obtain ⟨bytes, hft⟩ := exceptIsOk (hall t (List.mem_cons_self t rest))
    obtain ⟨tds, hloop, hlen, hcorr⟩ := ih fun c hc => hall c (List.mem_cons_of_mem t hc)
    refine ⟨{ x := t.x, y := t.y, data := bytes } :: tds, ?_, by simp [hlen], ?_⟩
    · simp only [getTilesLoop, hft, hloop]
    · intro i hi hc
      cases i with
      | zero => exact ⟨rfl, rfl, hft⟩
      | succ n =>
        have hi2 : n < tds.length := by simp at hi; omega
        have hc2 : n < rest.length := by simp at hc; omega
        exact hcorr n hi2 hc2

theorem getTilesLoop_err (fetch : tileConfig → Except GoError (List Nat)) {e : GoError} :
    ∀ (cfgs : List tileConfig) (k : Nat) (hk : k < cfgs.length),
    fetch (cfgs.get ⟨k, hk⟩) = .error e →
    (∀ i (hi : i < k), (fetch (cfgs.get ⟨i, by omega⟩)).isOk = true) →
    getTilesLoop fetch cfgs = (.error e, cfgs.take (k + 1)) := by
  intro cfgs
  induction cfgs with
  | nil => intro k hk; simp at hk
  | cons t rest ih =>
    intro k hk hfail hbefore
    cases k with
    | zero =>
      simp only [List.get] at hfail
      simp only [getTilesLoop, hfail, List.take_succ_cons, List.take_zero]
    | succ n =>
      have h0 : (fetch t).isOk = true := hbefore 0 (by omega)
      obtain ⟨bytes, hft⟩ := exceptIsOk h0
      have hk2 : n < rest.length := by simp at hk; omega
      have hfail2 : fetch (rest.get ⟨n, hk2⟩) = .error e := hfail
      have hbefore2 : ∀ i (hi : i < n), (fetch (rest.get ⟨i, by omega⟩)).isOk = true :=
        fun i hi => hbefore (i + 1) (by omega)
      have hrec := ih n hk2 hfail2 hbefore2
      simp only [getTilesLoop, hft, hrec, List.take_succ_cons]

/-! ## Rate limiter timing lemmas -/

theorem admissionTimes_length (I : Nat) :
    ∀ (ds : List Nat) (now ready : Nat),
      (admissionTimes I ds now ready).length = ds.length := by
  intro ds
  induction ds with
  | nil => intro now ready; rfl
  | cons d ds ih => intro now ready; simp [admissionTimes, ih]

theorem admissionTimes_ge (I : Nat) :
    ∀ (ds : List Nat) (now ready i : Nat) (hi : i < (admissionTimes I ds now ready).length),
      max now ready + i * I ≤ (admissionTimes I ds now ready).get ⟨i, hi⟩ := by
  intro ds
  induction ds with
  | nil => intro now ready i hi; simp [admissionTimes] at hi
  | cons d ds ih =>
    intro now ready i hi
    cases i with
    | zero => simp [admissionTimes]
    | succ n =>
      have hn : n < (admissionTimes I ds (max now ready + d) (max now ready + I)).length := by
        simp only [admissionTimes, List.length_cons] at hi
        omega
      have hrec := ih (max now ready + d) (max now ready + I) n hn
      simp only [admissionTimes, List.get] at hrec ⊢
      rw [Nat.succ_mul]
      omega

theorem admissionTimes_head (I : Nat) (d : Nat) (ds : List Nat) (now ready : Nat) :
    ∀ hi : 0 < (admissionTimes I (d :: ds) now ready).length,
      (admissionTimes I (d :: ds) now ready).get ⟨0, hi⟩ = max now ready := by
  intro hi
  rfl

theorem admissionTimes_spacing (I : Nat) :
    ∀ (ds : List Nat) (now ready i : Nat)
      (hi1 : i + 1 < (admissionTimes I ds now ready).length)
      (hi0 : i < (admissionTimes I ds now ready).length),
      (admissionTimes I ds now ready).get ⟨i, hi0⟩ + I ≤
        (admissionTimes I ds now ready).get ⟨i + 1, hi1⟩ := by
  intro ds
  induction ds with
  | nil => intro now ready i hi1; simp [admissionTimes] at hi1
  | cons d ds ih =>
    intro now ready i hi1 hi0
    cases i with
    | zero =>
      cases ds with
      | nil => simp [admissionTimes] at hi1
      | cons d2 ds2 =>
        simp only [admissionTimes, List.get]
        omega
    | succ n =>
      have h1 : n + 1 < (admissionTimes I ds (max now ready + d) (max now ready + I)).length := by
        simp only [admissionTimes, List.length_cons] at hi1
        omega
      have h0 : n < (admissionTimes I ds (max now ready + d) (max now ready + I)).length := by
        omega
      have hrec := ih (max now ready + d) (max now ready + I) n h1 h0
      simp only [admissionTimes, List.get] at hrec ⊢
      exact hrec

/-! ## Compositor lemmas -/

@[simp] theorem pasteImage_w (base sub : VImage) (ox oy : Int) :
    (pasteImage base sub ox oy).w = base.w := rfl

@[simp] theorem pasteImage_h (base sub : VImage) (ox oy : Int) :
    (pasteImage base sub ox oy).h = base.h := rfl

theorem vipsInsert_ok_w {base sub : VImage} {ox oy : Int} {c2 : VImage}
    (hins : vipsInsert base sub ox oy = .ok c2) : c2.w = base.w ∧ c2.h = base.h := by
  rw [vipsInsert] at hins
  by_cases hb : 0 ≤ ox ∧ 0 ≤ oy ∧ ox + sub.w ≤ base.w ∧ oy + sub.h ≤ base.h
  · rw [if_pos hb] at hins
    cases hins
    exact ⟨rfl, rfl⟩
  · rw [if_neg hb] at hins
    cases hins

theorem pureStep_w (decode : List Nat → Except Nat VImage) (c : VImage) (t : tileData) :
    (pureStep decode c t).w = c.w := by
  cases hdec : decode t.data with
  | error c1 => simp only [pureStep, hdec]
  | ok img =>
    cases hins : vipsInsert c img (tileSize * t.x) (tileSize * t.y) with
    | error e => simp only [pureStep, hdec, hins]
    | ok c2 => simp only [pureStep, hdec, hins, (vipsInsert_ok_w hins).1]

theorem pureStep_h (decode : List Nat → Except Nat VImage) (c : VImage) (t : tileData) :
    (pureStep decode c t).h = c.h := by
  cases hdec : decode t.data with
  | error c1 => simp only [pureStep, hdec]
  | ok img =>
    cases hins : vipsInsert c img (tileSize * t.x) (tileSize * t.y) with
    | error e => simp only [pureStep, hdec, hins]
    | ok c2 => simp only [pureStep, hdec, hins, (vipsInsert_ok_w hins).2]

theorem insertLoop_eq_foldl (decode : List Nat → Except Nat VImage) :
    ∀ (tiles : List tileData) (pano : VImage),
    (∀ t ∈ tiles, ∃ img, decode t.data = .ok img ∧
       0 ≤ tileSize * t.x ∧ 0 ≤ tileSize * t.y ∧
       tileSize * t.x + img.w ≤ pano.w ∧ tileSize * t.y + img.h ≤ pano.h) →
    insertLoop decode pano tiles = .ok (tiles.foldl (pureStep decode) pano) := by
  intro tiles
  induction tiles with
  | nil => intro pano _; rfl
  | cons t rest ih =>
    intro pano hall
    obtain ⟨img, hdec, hb1, hb2, hb3, hb4⟩ := hall t (List.mem_cons_self t rest)
    have hok : vipsInsert pano img (tileSize * t.x) (tileSize * t.y) =
        .ok (pasteImage pano img (tileSize * t.x) (tileSize * t.y)) := by
      rw [vipsInsert, if_pos ⟨hb1, hb2, hb3, hb4⟩]
    have hps : pureStep decode pano t = pasteImage pano img (tileSize * t.x) (tileSize * t.y) := by
      simp only [pureStep, hdec, hok]
    have hrest : ∀ t2 ∈ rest, ∃ img2, decode t2.data = .ok img2 ∧
        0 ≤ tileSize * t2.x ∧ 0 ≤ tileSize * t2.y ∧
        tileSize * t2.x + img2.w ≤ (pasteImage pano img (tileSize * t.x) (tileSize * t.y)).w ∧
        tileSize * t2.y + img2.h ≤ (pasteImage pano img (tileSize * t.x) (tileSize * t.y)).h := by
      intro t2 ht2
      obtain ⟨img2, hdec2, hc1, hc2, hc3, hc4⟩ := hall t2 (List.mem_cons_of_mem t ht2)
      exact ⟨img2, hdec2, hc1, hc2, by simpa using hc3, by simpa using hc4⟩
    simp only [insertLoop, hdec, hok, List.foldl_cons, hps]
    exact ih (pasteImage pano img (tileSize * t.x) (tileSize * t.y)) hrest

theorem pasteImage_comm (c i1 i2 : VImage) (x1 y1 x2 y2 : Int)
    (hd : regionsDisjoint x1 y1 i1.w i1.h x2 y2 i2.w i2.h) :
    pasteImage (pasteImage c i1 x1 y1) i2 x2 y2 =
      pasteImage (pasteImage c i2 x2 y2) i1 x1 y1 := by
  apply VImage.ext
  · rfl
  · rfl
  · intro i j
    simp only [pasteImage, regionsDisjoint] at hd ⊢
    split_ifs <;> first | rfl | omega

theorem pureStep_comm (decode : List Nat → Except Nat VImage) (t1 t2 : tileData)
    (hd : t1 = t2 ∨ ∀ img1 img2, decode t1.data = .ok img1 → decode t2.data = .ok img2 →
      regionsDisjoint (tileSize * t1.x) (tileSize * t1.y) img1.w img1.h
        (tileSize * t2.x) (tileSize * t2.y) img2.w img2.h) :
    ∀ z : VImage, pureStep decode (pureStep decode z t1) t2 =
      pureStep decode (pureStep decode z t2) t1 := by
  rcases hd with rfl | hd
  · intro z; rfl
  · intro z
    cases hdec1 : decode t1.data with
    | error c1 =>
      have hs1 : ∀ c : VImage, pureStep decode c t1 = c := by
        intro c; simp only [pureStep, hdec1]
      rw [hs1, hs1]
    | ok img1 =>
      cases hdec2 : decode t2.data with
      | error c2 =>
        have hs2 : ∀ c : VImage, pureStep decode c t2 = c := by
          intro c; simp only [pureStep, hdec2]
        rw [hs2, hs2]
      | ok img2 =>
        have hdisj := hd img1 img2 hdec1 hdec2
        by_cases hb1 : 0 ≤ tileSize * t1.x ∧ 0 ≤ tileSize * t1.y ∧
            tileSize * t1.x + img1.w ≤ z.w ∧ tileSize * t1.y + img1.h ≤ z.h
        · by_cases hb2 : 0 ≤ tileSize * t2.x ∧ 0 ≤ tileSize * t2.y ∧
              tileSize * t2.x + img2.w ≤ z.w ∧ tileSize * t2.y + img2.h ≤ z.h
          · simp only [pureStep, hdec1, hdec2, vipsInsert, pasteImage_w, pasteImage_h,
              if_pos hb1, if_pos hb2]
            exact pasteImage_comm z img1 img2 _ _ _ _ hdisj
          · simp only [pureStep, hdec1, hdec2, vipsInsert, pasteImage_w, pasteImage_h,
              if_pos hb1, if_neg hb2]
        · by_cases hb2 : 0 ≤ tileSize * t2.x ∧ 0 ≤ tileSize * t2.y ∧
              tileSize * t2.x + img2.w ≤ z.w ∧ tileSize * t2.y + img2.h ≤ z.h
          · simp only [pureStep, hdec1, hdec2, vipsInsert, pasteImage_w, pasteImage_h,
              if_neg hb1, if_pos hb2]
          · simp only [pureStep, hdec1, hdec2, vipsInsert, pasteImage_w, pasteImage_h,
              if_neg hb1, if_neg hb2]

theorem insertLoop_perm (decode : List Nat → Except Nat VImage) (pano : VImage)
    (l1 l2 : List tileData) (hperm : l1.Perm l2)
    (hall : ∀ t ∈ l1, ∃ img, decode t.data = .ok img ∧
       0 ≤ tileSize * t.x ∧ 0 ≤ tileSize * t.y ∧
       tileSize * t.x + img.w ≤ pano.w ∧ tileSize * t.y + img.h ≤ pano.h)
    (hdisj : ∀ t1 ∈ l1, ∀ t2 ∈ l1, t1 = t2 ∨
      ∀ img1 img2, decode t1.data = .ok img1 → decode t2.data = .ok img2 →
        regionsDisjoint (tileSize * t1.x) (tileSize * t1.y) img1.w img1.h
          (tileSize * t2.x) (tileSize * t2.y) img2.w img2.h) :
    insertLoop decode pano l1 = insertLoop decode pano l2 := by
  rw [insertLoop_eq_foldl decode l1 pano hall,
      insertLoop_eq_foldl decode l2 pano (fun t ht => hall t (hperm.mem_iff.2 ht))]
  congr 1
  exact hperm.foldl_eq' (fun x hx y hy z => pureStep_comm decode x y (hdisj x hx y hy) z) pano

/-- Geometric bounds for every planner tile: pasting a tileSize×tileSize
image at (tileSize·x, tileSize·y) stays inside the canvas sized from the
same zoom. -/
theorem tileGrid_bounds {p : String} {z : Int} :
    ∀ t ∈ tileGrid p z (2 ^ z.toNat) (2 ^ (z - 1).toNat),
      0 ≤ tileSize * t.x ∧ 0 ≤ tileSize * t.y ∧
      tileSize * t.x + tileSize ≤ tileSize * (2 : Int) ^ z.toNat ∧
      tileSize * t.y + tileSize ≤ tileSize * (2 : Int) ^ (z - 1).toNat := by
  intro t ht
  rw [mem_tileGrid] at ht
  obtain ⟨xi, hxi, yi, hyi, rfl⟩ := ht
  have hcw : ((2 ^ z.toNat : Nat) : Int) = (2 : Int) ^ z.toNat := by push_cast; ring
  have hch : ((2 ^ (z - 1).toNat : Nat) : Int) = (2 : Int) ^ (z - 1).toNat := by push_cast; ring
  have hx1 : (xi : Int) + 1 ≤ (2 : Int) ^ z.toNat := by
    rw [← hcw]; exact_mod_cast Nat.succ_le_of_lt hxi
  have hy1 : (yi : Int) + 1 ≤ (2 : Int) ^ (z - 1).toNat := by
    rw [← hch]; exact_mod_cast Nat.succ_le_of_lt hyi
  refine ⟨mul_nonneg (by norm_num [tileSize]) (Int.ofNat_nonneg xi),
    mul_nonneg (by norm_num [tileSize]) (Int.ofNat_nonneg yi), ?_, ?_⟩
  · calc tileSize * ((xi : Nat) : Int) + tileSize = tileSize * ((xi : Int) + 1) := by ring
      _ ≤ tileSize * (2 : Int) ^ z.toNat :=
        mul_le_mul_of_nonneg_left hx1 (by norm_num [tileSize])
  · calc tileSize * ((yi : Nat) : Int) + tileSize = tileSize * ((yi : Int) + 1) := by ring
      _ ≤ tileSize * (2 : Int) ^ (z - 1).toNat :=
        mul_le_mul_of_nonneg_left hy1 (by norm_num [tileSize])

/-- If every tile decodes to an image that fits at its offset inside the
zoom-z canvas, the compositor can only fail in the trim or extract stage,
never with the out-of-bounds composition error. -/
theorem compositePano_no_insert_err (decode : List Nat → Except Nat VImage)
    (findTrim : VImage → Except Nat (Int × Int × Int × Int))
    (tds : List tileData) (z : Int) (hz : 1 ≤ z)
    (hall : ∀ t ∈ tds, ∃ img, decode t.data = .ok img ∧
      0 ≤ tileSize * t.x ∧ 0 ≤ tileSize * t.y ∧
      tileSize * t.x + img.w ≤ tileSize * (2 : Int) ^ z.toNat ∧
      tileSize * t.y + img.h ≤ tileSize * (2 : Int) ^ (z - 1).toNat) :
    compositePano decode findTrim tds z ≠ .error .insertOutOfBounds := by
  unfold compositePano
  rw [getDimensionsFromZoom_pos hz, exceptOkBind]
  show (insertLoop decode
      (vipsBlack (tileSize * (2 : Int) ^ z.toNat) (tileSize * (2 : Int) ^ (z - 1).toNat)) tds >>=
        fun pano =>
          match findTrim pano with
          | Except.error c => Except.error (GoError.trimError c)
          | Except.ok (left, top, tw, th) => vipsExtractArea pano left top tw th) ≠
    Except.error GoError.insertOutOfBounds
  rw [insertLoop_eq_foldl decode tds _ hall, exceptOkBind]
  cases hft : findTrim (tds.foldl (pureStep decode)
      (vipsBlack (tileSize * (2 : Int) ^ z.toNat) (tileSize * (2 : Int) ^ (z - 1).toNat))) with
  | error c => simp [hft]
  | ok quad =>
    obtain ⟨left, top, tw, th⟩ := quad
    simp only [vipsExtractArea]
    split
    · simp
    · simp

/-! ## Claim theorems -/

/-- C4: URL generation (`makePanoUrl`) is a pure function matching the
template `https://<host>/<endpoint>?output=tile&panoid=<panoramaId>&zoom=<zoom>&x=<column>&y=<row>`,
and inputs differing in any single field yield different URL strings. -/
theorem C4_makePanoUrl_template_and_injective :
    (∀ (p : String) (z x y : Int),
      makePanoUrl p z x y =
        "https://cbk0.google.com/cbk?output=tile&panoid=" ++ p ++ "&zoom=" ++
          intDec z ++ "&x=" ++ intDec x ++ "&y=" ++ intDec y) ∧
    (∀ (p1 p2 : String) (z x y : Int),
      makePanoUrl p1 z x y = makePanoUrl p2 z x y → p1 = p2) ∧
    (∀ (p : String) (z1 z2 x y : Int),
      makePanoUrl p z1 x y = makePanoUrl p z2 x y → z1 = z2) ∧
    (∀ (p : String) (z x1 x2 y : Int),
      makePanoUrl p z x1 y = makePanoUrl p z x2 y → x1 = x2) ∧
    (∀ (p : String) (z x y1 y2 : Int),
      makePanoUrl p z x y1 = makePanoUrl p z x y2 → y1 = y2) :=
  ⟨fun _ _ _ _ => rfl,
   fun _ _ _ _ _ => makePanoUrl_p_inj,
   fun _ _ _ _ _ => makePanoUrl_z_inj,
   fun _ _ _ _ _ => makePanoUrl_x_inj,
   fun _ _ _ _ _ => makePanoUrl_y_inj⟩

/-- Witness for C4 at the concrete input (panoId "ABC", zoom 2, x 3, y 1). -/
theorem C4_witness :
    ("ABC" : String) = "ABC" ∧ (2 : Int) = 2 ∧ (3 : Int) = 3 ∧ (1 : Int) = 1 :=
  ⟨C4_makePanoUrl_template_and_injective.2.1 "ABC" "ABC" 2 3 1 (by decide),
   C4_makePanoUrl_template_and_injective.2.2.1 "ABC" 2 2 3 1 (by decide),
   C4_makePanoUrl_template_and_injective.2.2.2.1 "ABC" 2 3 3 1 (by decide),
   C4_makePanoUrl_template_and_injective.2.2.2.2 "ABC" 2 3 1 1 (by decide)⟩

/-- C6 counterexample: with the caller's request context already cancelled,
`RLHTTPClient.Do` still issues the request and returns the transport's
response — it does not fail with a cancellation error, because the wait is
performed on a locally created `context.Background()`. -/
theorem C6_counterexample :
    RLDo (fun _ => .ok { status := 200, body := [1] })
        { url := "u", ctx := { cancelled := true } } =
      .ok { status := 200, body := [1] } ∧
    RLDo (fun _ => .ok { status := 200, body := [1] })
        { url := "u", ctx := { cancelled := true } } ≠
      .error .contextCanceled := by
  constructor
  · decide
  · decide

/-- C6 (amended): `RLHTTPClient.Do` waits on a `context.Background()` it
creates itself, which is never cancelled, so the limiter wait always admits
and the request is always issued; the caller's request context has no
effect on the outcome. -/
theorem C6_RLDo_ignores_caller_context :
    (∀ (transport : HttpRequest → Except GoError HttpResponse) (req : HttpRequest),
      RLDo transport req = transport req) ∧
    limiterWait GoContext.background = .ok () := by
  constructor
  · intro transport req
    cases h : transport req with
    | error e => simp [RLDo, limiterWait, GoContext.background, h]
    | ok r => simp [RLDo, limiterWait, GoContext.background, h]
  · rfl

/-- C7 counterexample: at zoom 0 the planner does not produce any result
list at all (empty or otherwise) — it hits the Go runtime panic for a
negative shift amount in `1 << (zoom - 1)`. -/
theorem C7_counterexample :
    (getTilesConfig "" 0).isOk = false ∧
    getTilesConfig "" 0 = .error .negativeShiftPanic := by
  constructor
  · decide
  · decide

/-- C7 (amended): for every zoom z ≤ 0 the planner crashes with the
negative-shift runtime panic (from `1 << zoom` when z < 0, or from
`1 << (zoom-1)` when z = 0); it never returns a descriptor list. -/
theorem C7_planner_nonpositive_zoom_panics (p : String) (z : Int) (hz : z ≤ 0) :
    getTilesConfig p z = .error .negativeShiftPanic := by
  have hdim : getDimensionsFromZoom z = .error .negativeShiftPanic := by
    unfold getDimensionsFromZoom
    rcases lt_or_eq_of_le hz with hlt | heq
    · rw [goShiftOne, if_pos hlt, exceptErrBind]
    · subst heq
      decide
  unfold getTilesConfig
  rw [hdim, exceptErrBind]

/-- Witness for C7 (amended) at zoom 0. -/
theorem C7_witness : getTilesConfig "x" 0 = .error .negativeShiftPanic :=
  C7_planner_nonpositive_zoom_panics "x" 0 (by decide)

/-- C9: when request construction and the transport succeed, `fetchTile`
returns the full response body as the tile bytes, for every response —
including any non-2xx status, which is never inspected. -/
theorem C9_fetchTile_returns_body_ignores_status
    (cfg : tileConfig) (newRequest : String → Except GoError HttpRequest)
    (transport : HttpRequest → Except GoError HttpResponse) (req : HttpRequest)
    (hreq : newRequest cfg.url = .ok req) :
    ∀ resp : HttpResponse, transport req = .ok resp →
      fetchTile cfg newRequest transport = .ok resp.body := by
  intro resp hresp
  unfold fetchTile
  rw [hreq, exceptOkBind]
  have hdo : RLDo transport req = .ok resp := by
    simp [RLDo, limiterWait, GoContext.background, hresp]
  rw [hdo, exceptOkBind]

/-- Witness for C9: a 404 response's body is returned as tile data. -/
theorem C9_witness :
    fetchTile { x := 0, y := 0, url := "u" }
        (fun u => .ok { url := u, ctx := { cancelled := false } })
        (fun _ => .ok { status := 404, body := [9, 9] }) = .ok [9, 9] :=
  C9_fetchTile_returns_body_ignores_status
    { x := 0, y := 0, url := "u" }
    (fun u => .ok { url := u, ctx := { cancelled := false } })
    (fun _ => .ok { status := 404, body := [9, 9] })
    { url := "u", ctx := { cancelled := false } }
    rfl
    { status := 404, body := [9, 9] }
    rfl

/-- C10: when planning, download, composition and JPEG export all succeed,
`main` terminates as if successful whatever the result of the final
`os.WriteFile` — the write error is assigned and dropped, never reported. -/
theorem C10_write_error_ignored
    (fetch : tileConfig → Except GoError (List Nat))
    (decode : List Nat → Except Nat VImage)
    (findTrim : VImage → Except Nat (Int × Int × Int × Int))
    (exportJPEG : VImage → Except Nat (List Nat))
    (w1 w2 : List Nat → Except Nat Unit)
    (tiles : List tileData) (pano : VImage) (bytes : List Nat)
    (hT : getTiles mainPanoId defaultZoom fetch = .ok tiles)
    (hC : compositePano decode findTrim tiles defaultZoom = .ok pano)
    (hE : exportJPEG pano = .ok bytes) :
    mainRun fetch decode findTrim exportJPEG w1 = .ok () ∧
    mainRun fetch decode findTrim exportJPEG w2 = .ok () := by
  constructor <;>
  · unfold mainRun
    rw [hT, exceptOkBind, hC, exceptOkBind, hE]
    rfl

/-- Witness for C10: a concrete run in which every stage succeeds and the
final write fails, yet `main` finishes as if successful. -/
theorem C10_witness :
    mainRun (fun _ => .ok []) (fun _ => .ok { w := tileSize, h := tileSize, pix := fun _ _ => 0 })
        (fun _ => .ok (0, 0, 1, 1)) (fun _ => .ok [7]) (fun _ => .error 3) = .ok () :=
  (C10_write_error_ignored (fun _ => .ok [])
    (fun _ => .ok { w := tileSize, h := tileSize, pix := fun _ _ => 0 })
    (fun _ => .ok (0, 0, 1, 1)) (fun _ => .ok [7]) (fun _ => .ok ()) (fun _ => .error 3)
    _ _ _ rfl rfl rfl).2

/-- C1: for every zoom z ≥ 1 and every panorama id, the planner returns
exactly 2^z · 2^(z-1) descriptors, columns in [0, 2^z), rows in
[0, 2^(z-1)), each (column, row) pair exactly once (membership plus no
duplicates), ordered column-major then row-major (the descriptor at index
i·2^(z-1)+j is (i, j)), each with the URL given by `makePanoUrl`. -/
theorem C1_planner_grid (p : String) (z : Int) (hz : 1 ≤ z) :
    ∃ l, getTilesConfig p z = .ok l ∧
      l.length = 2 ^ z.toNat * 2 ^ (z - 1).toNat ∧
      (∀ t ∈ l, 0 ≤ t.x ∧ t.x < (2 : Int) ^ z.toNat ∧ 0 ≤ t.y ∧
        t.y < (2 : Int) ^ (z - 1).toNat ∧ t.url = makePanoUrl p z t.x t.y) ∧
      ((l.map fun t => (t.x, t.y)).Nodup) ∧
      (∀ a b : Int, 0 ≤ a → a < (2 : Int) ^ z.toNat → 0 ≤ b → b < (2 : Int) ^ (z - 1).toNat →
        (a, b) ∈ l.map fun t => (t.x, t.y)) ∧
      (∀ i j : Nat, i < 2 ^ z.toNat → j < 2 ^ (z - 1).toNat →
        ∀ hidx : i * 2 ^ (z - 1).toNat + j < l.length,
          l.get ⟨i * 2 ^ (z - 1).toNat + j, hidx⟩ =
            { x := (i : Int), y := (j : Int), url := makePanoUrl p z (i : Int) (j : Int) }) := by
  have hcw : ((2 ^ z.toNat : Nat) : Int) = (2 : Int) ^ z.toNat := by push_cast; ring
  have hch : ((2 ^ (z - 1).toNat : Nat) : Int) = (2 : Int) ^ (z - 1).toNat := by push_cast; ring
  refine ⟨tileGrid p z (2 ^ z.toNat) (2 ^ (z - 1).toNat), getTilesConfig_pos hz p,
    tileGrid_length p z _ _, ?_, tileGrid_pairs_nodup p z _ _, ?_, ?_⟩
  · intro t ht
    rw [mem_tileGrid] at ht
    obtain ⟨xi, hxi, yi, hyi, rfl⟩ := ht
    refine ⟨Int.ofNat_nonneg xi, ?_, Int.ofNat_nonneg yi, ?_, rfl⟩
    · show (xi : Int) < (2 : Int) ^ z.toNat
      rw [← hcw]
      exact_mod_cast hxi
    · show (yi : Int) < (2 : Int) ^ (z - 1).toNat
      rw [← hch]
      exact_mod_cast hyi
  · intro a b ha0 haw hb0 hbh
    refine tileGrid_pairs_mem ha0 ?_ hb0 ?_
    · rw [hcw]; exact haw
    · rw [hch]; exact hbh
  · intro i j hi hj hidx
    exact tileGrid_get p z _ _ i j hi hj hidx

/-- Witness for C1 at panorama id "w", zoom 1: the grid is the 2×1 list of
descriptors. -/
theorem C1_witness : ∃ l, getTilesConfig "w" 1 = Except.ok l ∧ l.length = 2 := by
  obtain ⟨l, h1, h2, _⟩ := C1_planner_grid "w" 1 (by decide)
  refine ⟨l, h1, ?_⟩
  rw [h2]
  decide

/-- C3: the downloader processes the planner's descriptors strictly in
order, one at a time.  If every fetch succeeds it returns one TileData per
descriptor, in the same order, with the descriptor's coordinates and the
fetched bytes.  If the fetch of descriptor k (0-indexed) fails and all
earlier ones succeeded, it returns that error; exactly the first k+1
fetches were issued (descriptors k+1..N were not).  In the pipeline, a
failing download aborts `main` with that error before any composition
step: the outcome does not depend on the compositor-stage collaborators. -/
theorem C3_downloader_sequential_abort :
    (∀ (p : String) (z : Int), 1 ≤ z →
      ∀ (fetch : tileConfig → Except GoError (List Nat)) (cfgs : List tileConfig),
        getTilesConfig p z = .ok cfgs →
        ((∀ c ∈ cfgs, (fetch c).isOk = true) →
          ∃ tds, getTiles p z fetch = .ok tds ∧ tds.length = cfgs.length ∧
            ∀ (i : Nat) (hi : i < tds.length) (hc : i < cfgs.length),
              (tds.get ⟨i, hi⟩).x = (cfgs.get ⟨i, hc⟩).x ∧
              (tds.get ⟨i, hi⟩).y = (cfgs.get ⟨i, hc⟩).y ∧
              fetch (cfgs.get ⟨i, hc⟩) = .ok (tds.get ⟨i, hi⟩).data) ∧
        (∀ (k : Nat) (hk : k < cfgs.length) (e : GoError),
          fetch (cfgs.get ⟨k, hk⟩) = .error e →
          (∀ i (hi : i < k), (fetch (cfgs.get ⟨i, by omega⟩)).isOk = true) →
          getTiles p z fetch = .error e ∧
          (getTilesLoop fetch cfgs).2 = cfgs.take (k + 1))) ∧
    (∀ (fetch : tileConfig → Except GoError (List Nat)) (e : GoError),
      getTiles mainPanoId defaultZoom fetch = .error e →
      ∀ (d1 d2 : List Nat → Except Nat VImage)
        (f1 f2 : VImage → Except Nat (Int × Int × Int × Int))
        (x1 x2 : VImage → Except Nat (List Nat))
        (wf1 wf2 : List Nat → Except Nat Unit),
        mainRun fetch d1 f1 x1 wf1 = .error e ∧
        mainRun fetch d1 f1 x1 wf1 = mainRun fetch d2 f2 x2 wf2) := by
  constructor
  · intro p z _ fetch cfgs hcfg
    have hgt : getTiles p z fetch = (getTilesLoop fetch cfgs).1 := by
      unfold getTiles
      rw [hcfg, exceptOkBind]
    constructor
    · intro hall
      obtain ⟨tds, hloop, hlen, hcorr⟩ := getTilesLoop_ok fetch cfgs hall
      exact ⟨tds, by rw [hgt, hloop], hlen, hcorr⟩
    · intro k hk e hfail hbefore
      have hloop := getTilesLoop_err fetch cfgs k hk hfail hbefore
      exact ⟨by rw [hgt, hloop], by rw [hloop]⟩
  · intro fetch e herr d1 d2 f1 f2 x1 x2 wf1 wf2
    have hm : ∀ (d : List Nat → Except Nat VImage)
        (f : VImage → Except Nat (Int × Int × Int × Int))
        (x : VImage → Except Nat (List Nat)) (wf : List Nat → Except Nat Unit),
        mainRun fetch d f x wf = .error e := by
      intro d f x wf
      unfold mainRun
      rw [herr, exceptErrBind]
    rw [hm d1 f1 x1 wf1, hm d2 f2 x2 wf2]
    exact ⟨rfl, rfl⟩

/-- Witness for C3: with a transport that fails every fetch, `main` aborts
with that first fetch error, whatever the compositor collaborators are. -/
theorem C3_witness :
    mainRun (fun _ => .error (.network 7)) (fun _ => .error 0) (fun _ => .error 0)
        (fun _ => .error 0) (fun _ => .error 0) = .error (.network 7) :=
  (C3_downloader_sequential_abort.2 (fun _ => .error (.network 7)) (.network 7) rfl
    (fun _ => .error 0) (fun _ => .error 0) (fun _ => .error 0) (fun _ => .error 0)
    (fun _ => .error 0) (fun _ => .error 0) (fun _ => .error 0) (fun _ => .error 0)).1

/-- C8: against a token-bucket limiter with interval I and burst 1 driven
sequentially from time 0, the first request is admitted immediately, the
k-th admission (0-indexed) happens no earlier than k·I — so N requests
take at least (N-1)·I — and consecutive admissions are at least I apart
(at most one outbound request per interval). -/
theorem C8_rate_limiter_spacing (I : Nat) (delays : List Nat) :
    (seqAdmissions I delays).length = delays.length ∧
    (∀ h0 : 0 < (seqAdmissions I delays).length, (seqAdmissions I delays).get ⟨0, h0⟩ = 0) ∧
    (∀ (i : Nat) (hi : i < (seqAdmissions I delays).length),
      i * I ≤ (seqAdmissions I delays).get ⟨i, hi⟩) ∧
    (∀ (i : Nat) (hi1 : i + 1 < (seqAdmissions I delays).length)
        (hi0 : i < (seqAdmissions I delays).length),
      (seqAdmissions I delays).get ⟨i, hi0⟩ + I ≤
        (seqAdmissions I delays).get ⟨i + 1, hi1⟩) := by
  refine ⟨admissionTimes_length I delays 0 0, ?_, ?_, ?_⟩
  · intro h0
    cases delays with
    | nil => simp [seqAdmissions, admissionTimes] at h0
    | cons d ds =>
      have := admissionTimes_head I d ds 0 0 h0
      simpa [seqAdmissions] using this
  · intro i hi
    have := admissionTimes_ge I delays 0 0 i hi
    simpa [seqAdmissions] using this
  · intro i hi1 hi0
    exact admissionTimes_spacing I delays 0 0 i hi1 hi0

/-- Witness for C8 at I = 200 with three sequential requests. -/
theorem C8_witness :
    (seqAdmissions 200 [3, 4]).length = 2 ∧
    200 ≤ (seqAdmissions 200 [3, 4]).get ⟨1, by decide⟩ := by
  constructor
  · exact (C8_rate_limiter_spacing 200 [3, 4]).1
  · have := (C8_rate_limiter_spacing 200 [3, 4]).2.2.1 1 (by decide)
    simpa using this

/-- C5: for zoom z ≥ 1, every planner descriptor's paste offset together
with a tileSize×tileSize tile lies inside the zoom-z canvas, so the insert
succeeds; consequently the out-of-bounds composition-error branch of the
compositor is unreachable when it is fed tiles with the planner's
coordinates for the same zoom and a decoder producing tileSize-square
images. -/
theorem C5_paste_in_bounds (p : String) (z : Int) (hz : 1 ≤ z) :
    (∀ l, getTilesConfig p z = .ok l →
      ∀ t ∈ l, ∀ img : VImage, img.w = tileSize → img.h = tileSize →
        ∀ base : VImage, base.w = tileSize * (2 : Int) ^ z.toNat →
          base.h = tileSize * (2 : Int) ^ (z - 1).toNat →
          vipsInsert base img (tileSize * t.x) (tileSize * t.y) =
            .ok (pasteImage base img (tileSize * t.x) (tileSize * t.y))) ∧
    (∀ (decode : List Nat → Except Nat VImage)
        (findTrim : VImage → Except Nat (Int × Int × Int × Int)) (tds : List tileData),
      (∀ b, ∃ img, decode b = .ok img ∧ img.w = tileSize ∧ img.h = tileSize) →
      (∀ td ∈ tds, ∃ t ∈ tileGrid p z (2 ^ z.toNat) (2 ^ (z - 1).toNat),
        td.x = t.x ∧ td.y = t.y) →
      compositePano decode findTrim tds z ≠ .error .insertOutOfBounds) := by
  constructor
  · intro l hl t ht img hiw hih base hbw hbh
    rw [getTilesConfig_pos hz p] at hl
    injection hl with hl
    subst hl
    obtain ⟨b1, b2, b3, b4⟩ := tileGrid_bounds t ht
    rw [vipsInsert, if_pos]
    refine ⟨b1, b2, ?_, ?_⟩
    · rw [hiw, hbw]; exact b3
    · rw [hih, hbh]; exact b4
  · intro decode findTrim tds hdec hcoord
    apply compositePano_no_insert_err decode findTrim tds z hz
    intro td htd
    obtain ⟨img, hdi, hiw, hih⟩ := hdec td.data
    obtain ⟨t, htg, hx, hy⟩ := hcoord td htd
    obtain ⟨b1, b2, b3, b4⟩ := tileGrid_bounds t htg
    refine ⟨img, hdi, ?_, ?_, ?_, ?_⟩
    · rw [hx]; exact b1
    · rw [hy]; exact b2
    · rw [hx, hiw]; exact b3
    · rw [hy, hih]; exact b4

/-- Witness for C5 at zoom 1 with a single tile carrying the planner's
(0,0) coordinates and a decoder producing tileSize-square images. -/
theorem C5_witness :
    compositePano (fun _ => .ok { w := tileSize, h := tileSize, pix := fun _ _ => 0 })
        (fun _ => .ok (0, 0, 1, 1)) [{ x := 0, y := 0, data := [] }] 1 ≠
      .error .insertOutOfBounds := by
  apply (C5_paste_in_bounds "w" 1 (by decide)).2
  · intro b
    exact ⟨{ w := tileSize, h := tileSize, pix := fun _ _ => 0 }, rfl, rfl, rfl⟩
  · intro td htd
    simp only [List.mem_singleton] at htd
    subst htd
    refine ⟨{ x := 0, y := 0, url := makePanoUrl "w" 1 0 0 }, ?_, rfl, rfl⟩
    decide

/-- C2: for zoom z ≥ 1 the compositor's canvas has size
(tileSize·2^z, tileSize·2^(z-1)) and is uniformly black; each tile is
pasted opaquely at pixel offset (tileSize·column, tileSize·row) — inside
the pasted rectangle the new pixels fully replace the canvas, outside it
the canvas is untouched, and the canvas size is unchanged; and the
assembled result is unchanged under any reordering of tiles whose paste
regions do not overlap. -/
theorem C2_compositor_canvas_paste_order (z : Int) (hz : 1 ≤ z) :
    (∀ dim, getDimensionsFromZoom z = .ok dim →
      (vipsBlack (tileSize * dim.width) (tileSize * dim.height)).w =
          tileSize * (2 : Int) ^ z.toNat ∧
      (vipsBlack (tileSize * dim.width) (tileSize * dim.height)).h =
          tileSize * (2 : Int) ^ (z - 1).toNat ∧
      (∀ i j : Int, (vipsBlack (tileSize * dim.width) (tileSize * dim.height)).pix i j = 0)) ∧
    (∀ (base img : VImage) (tx ty : Int),
      0 ≤ tileSize * tx → 0 ≤ tileSize * ty →
      tileSize * tx + img.w ≤ base.w → tileSize * ty + img.h ≤ base.h →
      vipsInsert base img (tileSize * tx) (tileSize * ty) =
        .ok (pasteImage base img (tileSize * tx) (tileSize * ty)) ∧
      (∀ i j : Int,
        (pasteImage base img (tileSize * tx) (tileSize * ty)).pix i j =
          if tileSize * tx ≤ i ∧ i < tileSize * tx + img.w ∧
             tileSize * ty ≤ j ∧ j < tileSize * ty + img.h then
            img.pix (i - tileSize * tx) (j - tileSize * ty)
          else base.pix i j) ∧
      (pasteImage base img (tileSize * tx) (tileSize * ty)).w = base.w ∧
      (pasteImage base img (tileSize * tx) (tileSize * ty)).h = base.h) ∧
    (∀ (decode : List Nat → Except Nat VImage) (pano : VImage) (l1 l2 : List tileData),
      l1.Perm l2 →
      (∀ t ∈ l1, ∃ img, decode t.data = .ok img ∧ 0 ≤ tileSize * t.x ∧ 0 ≤ tileSize * t.y ∧
        tileSize * t.x + img.w ≤ pano.w ∧ tileSize * t.y + img.h ≤ pano.h) →
      (∀ t1 ∈ l1, ∀ t2 ∈ l1, t1 = t2 ∨
        ∀ img1 img2, decode t1.data = .ok img1 → decode t2.data = .ok img2 →
          regionsDisjoint (tileSize * t1.x) (tileSize * t1.y) img1.w img1.h
            (tileSize * t2.x) (tileSize * t2.y) img2.w img2.h) →
      insertLoop decode pano l1 = insertLoop decode pano l2) := by
  refine ⟨?_, ?_, ?_⟩
  · intro dim hdim
    rw [getDimensionsFromZoom_pos hz] at hdim
    injection hdim with hdim
    subst hdim
    exact ⟨rfl, rfl, fun i j => rfl⟩
  · intro base img tx ty h1 h2 h3 h4
    exact ⟨by rw [vipsInsert, if_pos ⟨h1, h2, h3, h4⟩], fun i j => rfl, rfl, rfl⟩
  · intro decode pano l1 l2 hperm hall hdisj
    exact insertLoop_perm decode pano l1 l2 hperm hall hdisj

/-- Witness for C2 at zoom 1: the canvas width matches, and pasting two
non-overlapping tiles in either order yields the same canvas. -/
theorem C2_witness :
    (vipsBlack (tileSize * ((2 : Int))) (tileSize * ((1 : Int)))).w =
        tileSize * (2 : Int) ^ (1 : Int).toNat ∧
    insertLoop (fun _ => .ok { w := tileSize, h := tileSize, pix := fun _ _ => 1 })
        (vipsBlack 1024 512)
        [{ x := 0, y := 0, data := [] }, { x := 1, y := 0, data := [] }] =
      insertLoop (fun _ => .ok { w := tileSize, h := tileSize, pix := fun _ _ => 1 })
        (vipsBlack 1024 512)
        [{ x := 1, y := 0, data := [] }, { x := 0, y := 0, data := [] }] := by
  constructor
  · exact ((C2_compositor_canvas_paste_order 1 (by decide)).1
      { width := 2, height := 1 } (by decide)).1
  · apply (C2_compositor_canvas_paste_order 1 (by decide)).2.2
    · exact List.Perm.swap ({ x := 1, y := 0, data := [] } : tileData)
        ({ x := 0, y := 0, data := [] } : tileData) []
    · intro t ht
      refine ⟨{ w := tileSize, h := tileSize, pix := fun _ _ => 1 }, rfl, ?_, ?_, ?_, ?_⟩ <;>
      · rcases List.mem_pair.1 ht with rfl | rfl <;> decide
    · intro t1 h1 t2 h2
      rcases List.mem_pair.1 h1 with rfl | rfl <;> rcases List.mem_pair.1 h2 with rfl | rfl
      · exact Or.inl rfl
      · refine Or.inr fun img1 img2 hi1 hi2 => ?_
        injection hi1 with e1
        injection hi2 with e2
        subst e1
        subst e2
        decide
      · refine Or.inr fun img1 img2 hi1 hi2 => ?_
        injection hi1 with e1
        injection hi2 with e2
        subst e1
        subst e2
        decide
      · exact Or.inl rfl

end LocationBot
